import Mathlib

/-!
Shallow embedding of the Secure File Ingestion Pipeline of
`transcription_service/app/security.py` and the `/transcribe` request handler
of `transcription_service/app/main.py`.

Byte strings are modelled as `List Nat` (one entry per byte), filenames as
`List Char`.  Python exceptions become `Except` values; filesystem effects
become explicit state passing over an association list from paths to byte
contents.
-/

set_option maxRecDepth 8192

/-- `bytes.startswith(pat)` / `str.startswith(pat)`: `pat` occurs at offset 0
of `l`. -/
def pfxOf {α : Type} [DecidableEq α] : List α → List α → Bool
  | [], _ => true
  | _ :: _, [] => false
  | a :: as, b :: bs => if a = b then pfxOf as bs else false

/-- Python `pat in l` for byte strings / strings: `pat` occurs as a contiguous
subsequence of `l` (the empty pattern occurs in everything). -/
def hasSub {α : Type} [DecidableEq α] (pat : List α) : List α → Bool
  | [] => pat.isEmpty
  | a :: rest => pfxOf pat (a :: rest) || hasSub pat rest

theorem pfxOf_nil {α : Type} [DecidableEq α] (l : List α) : pfxOf ([] : List α) l = true := by
  cases l <;> rfl

theorem pfxOf_mem {α : Type} [DecidableEq α] {pat l : List α} (h : pfxOf pat l = true) :
    ∀ c ∈ pat, c ∈ l := by
  induction pat generalizing l with
  | nil => intro c hc; cases hc
  | cons a as ih =>
    cases l with
    | nil => simp [pfxOf] at h
    | cons b bs =>
      simp only [pfxOf] at h
      split at h
      · next heq =>
        intro c hc
        rcases List.mem_cons.mp hc with hca | hca
        · exact List.mem_cons.mpr (Or.inl (hca.trans heq))
        · exact List.mem_cons.mpr (Or.inr (ih h c hca))
      · exact absurd h (by simp)

theorem hasSub_mem {α : Type} [DecidableEq α] {pat l : List α} (h : hasSub pat l = true) :
    ∀ c ∈ pat, c ∈ l := by
  induction l with
  | nil =>
    simp only [hasSub, List.isEmpty_iff] at h
    intro c hc; rw [h] at hc; cases hc
  | cons a rest ih =>
    simp only [hasSub, Bool.or_eq_true] at h
    rcases h with h | h
    · exact pfxOf_mem h
    · intro c hc; exact List.mem_cons.mpr (Or.inr (ih h c hc))

/-- `takeWhile p` keeps the whole list when every element satisfies `p`. -/
theorem takeWhile_all {α : Type} (p : α → Bool) (l : List α) (h : ∀ c ∈ l, p c = true) :
    l.takeWhile p = l := by
  induction l with
  | nil => rfl
  | cons a rest ih =>
    simp only [List.takeWhile]
    rw [h a (List.mem_cons_self a rest)]
    simp [ih fun c hc => h c (List.mem_cons.mpr (Or.inr hc))]

/-! ## Filename sanitizer (`security.py`, `sanitize_filename`) -/

/-- Exceptions of `security.py`: `PathTraversalError`, `InvalidFileError` and
the base `SecurityError`, each carrying its message. -/
inductive SecError : Type
  | pathTraversal (msg : String)
  | invalidFile (msg : String)
  | security (msg : String)
deriving DecidableEq, Repr

/-- `os.path.basename` on POSIX: the part of the path after the last `/`. -/
def basename (s : List Char) : List Char :=
  (s.reverse.takeWhile (fun c => ¬ c = '/')).reverse

/-- The `dangerous_patterns` list of `sanitize_filename`, in source order:
`..`, `/`, `\`, NUL, CR, LF. -/
def dangerous_patterns : List (List Char) :=
  [['.', '.'], ['/'], ['\\'], ['\x00'], ['\r'], ['\n']]

/-- One character of the whitelist `[a-zA-Z0-9._-]` used by the regex
`^[a-zA-Z0-9._-]+$` in `sanitize_filename`. -/
def validChar (c : Char) : Bool :=
  ('a' ≤ c && c ≤ 'z') || ('A' ≤ c && c ≤ 'Z') || ('0' ≤ c && c ≤ '9') ||
    c = '.' || c = '_' || c = '-'

/-- `sanitize_filename` from `security.py`: reject empty input, reduce to the
POSIX basename, reject if the basename contains a dangerous pattern, fails the
character whitelist, starts with a dot, or is longer than 255 characters
(every whitelisted character is one byte, so length in characters equals
length in bytes); otherwise return the basename. -/
def sanitize_filename (filename : List Char) : Except SecError (List Char) :=
  if filename = [] then
    .error (.pathTraversal "Empty filename not allowed")
  else if dangerous_patterns.any (fun p => hasSub p (basename filename)) then
    .error (.pathTraversal "Filename contains dangerous pattern")
  else if ¬ (basename filename ≠ [] ∧ (basename filename).all validChar = true) then
    .error (.pathTraversal "Filename contains invalid characters")
  else if pfxOf ['.'] (basename filename) = true then
    .error (.pathTraversal "Hidden files not allowed")
  else if (basename filename).length > 255 then
    .error (.pathTraversal "Filename too long")
  else
    .ok (basename filename)

instance {ε α : Type} [DecidableEq ε] [DecidableEq α] : DecidableEq (Except ε α) := fun x y =>
  match x, y with
  | .ok a, .ok b =>
    if h : a = b then isTrue (by rw [h]) else isFalse (by intro hc; cases hc; exact h rfl)
  | .error a, .error b =>
    if h : a = b then isTrue (by rw [h]) else isFalse (by intro hc; cases hc; exact h rfl)
  | .ok _, .error _ => isFalse (by intro hc; cases hc)
  | .error _, .ok _ => isFalse (by intro hc; cases hc)

/-- Whether an `Except` value is a raised `PathTraversalError`. -/
def isPathTraversalErr {α : Type} : Except SecError α → Bool
  | .error (.pathTraversal _) => true
  | _ => false

example : sanitize_filename ("../../etc/passwd".data) = .ok ("passwd".data) := by decide

example : isPathTraversalErr (sanitize_filename ("a..b".data)) = true := by decide

example : sanitize_filename ("note.wav".data) = .ok ("note.wav".data) := by decide

/-! ## Extension validator (`security.py`, `validate_file_extension`) -/

/-- The extension part of `os.path.splitext`: everything from the last dot on,
except that a run of dots at the very start of the name never begins an
extension (so `".bashrc"` and `"..."` have no extension). -/
def splitextExt (name : List Char) : List Char :=
  let afterDot := (name.reverse.takeWhile (fun c => ¬ c = '.')).reverse
  if afterDot.length = name.length then []
  else
    let stem := name.take (name.length - afterDot.length - 1)
    if stem.all (fun c => c = '.') then [] else '.' :: afterDot

/-- `config.ALLOWED_EXTENSIONS` from `config.py` (a set in the source; listed
here in the literal's order, only membership is ever used). -/
def ALLOWED_EXTENSIONS : List String := [".mp3", ".wav", ".webm", ".m4a", ".ogg", ".flac"]

/-- `config.MAX_FILE_SIZE` from `config.py`: 25 MiB in bytes. -/
def MAX_FILE_SIZE : Nat := 26214400

/-- `validate_file_extension` from `security.py`: lower-cased extension of the
sanitized filename, rejected when absent or not in the allow-set. -/
def validate_file_extension (filename : List Char) (allowed : List String) :
    Except SecError String :=
  let ext := String.mk ((splitextExt filename).map Char.toLower)
  if ext = "" then .error (.invalidFile "File must have an extension")
  else if ¬ allowed.contains ext then .error (.invalidFile "Unsupported file format")
  else .ok ext

example : validate_file_extension ("note.wav".data) ALLOWED_EXTENSIONS = .ok ".wav" := by decide

example : isPathTraversalErr (validate_file_extension ("note".data) ALLOWED_EXTENSIONS) = false := by decide

/-! ## Content signature validator (`security.py`, `validate_audio_content`) -/

/-- The `RIFF` prefix bytes. -/
def RIFF_MAGIC : List Nat := [0x52, 0x49, 0x46, 0x46]

/-- The `WAVE` literal expected at byte offset 8 of a WAV file. -/
def WAVE_TAG : List Nat := [0x57, 0x41, 0x56, 0x45]

/-- The `ftyp` literal expected inside the first 32 bytes of an MP4/M4A box. -/
def FTYP_TAG : List Nat := [0x66, 0x74, 0x79, 0x70]

/-- The WebM/Matroska container prefix `1A 45 DF A3`. -/
def WEBM_MAGIC : List Nat := [0x1A, 0x45, 0xDF, 0xA3]

/-- `AUDIO_MAGIC_NUMBERS` from `security.py`, in the dict's insertion order
(Python dict iteration preserves insertion order): magic prefix bytes mapped
to the audio extension they identify. -/
def AUDIO_MAGIC_NUMBERS : List (List Nat × String) :=
  [([0xFF, 0xFB], ".mp3"),
   ([0xFF, 0xF3], ".mp3"),
   ([0xFF, 0xF2], ".mp3"),
   ([0x49, 0x44, 0x33], ".mp3"),
   (RIFF_MAGIC, ".wav"),
   ([0x4F, 0x67, 0x67, 0x53], ".ogg"),
   ([0x66, 0x4C, 0x61, 0x43], ".flac"),
   ([0x00, 0x00, 0x00, 0x20, 0x66, 0x74, 0x79, 0x70, 0x4D, 0x34, 0x41, 0x20], ".m4a"),
   ([0x00, 0x00, 0x00, 0x18, 0x66, 0x74, 0x79, 0x70, 0x6D, 0x70, 0x34, 0x32], ".mp4"),
   ([0x00, 0x00, 0x00, 0x20, 0x66, 0x74, 0x79, 0x70, 0x6D, 0x70, 0x34, 0x32], ".mp4"),
   ([0x00, 0x00, 0x00, 0x18, 0x66, 0x74, 0x79, 0x70, 0x4D, 0x34, 0x41, 0x20], ".m4a"),
   (WEBM_MAGIC, ".webm")]

/-- The `for magic_bytes, extension in AUDIO_MAGIC_NUMBERS.items()` loop of
`validate_audio_content`: `some b` models a `return` with value `b` from
inside the loop, `none` models falling off the end of the loop. -/
def magicLoop (c : List Nat) (ext : String) : List (List Nat × String) → Option Bool
  | [] => none
  | (m, e) :: rest =>
    if pfxOf m c = true then
      if m = RIFF_MAGIC ∧ ext = ".wav" then
        if c.length > 12 ∧ (c.drop 8).take 4 = WAVE_TAG then some true else some false
      else if pfxOf [0x00, 0x00, 0x00] m = true ∧ (ext = ".m4a" ∨ ext = ".mp4") then
        if hasSub FTYP_TAG (c.take 32) = true then some (decide (e = ext)) else some false
      else if m = WEBM_MAGIC ∧ ext = ".webm" then
        if c.length > 32 then some true else some false
      else if e = ext then some true
      else magicLoop c ext rest
    else magicLoop c ext rest

/-- `validate_audio_content` from `security.py`: reject payloads under 20
bytes, then run the magic-number loop; when the loop falls through, the
source computes the list of detected extensions and returns `False` whether
it is empty or not (with different log lines). -/
def validate_audio_content (c : List Nat) (ext : String) : Bool :=
  if c.length < 20 then false
  else
    match magicLoop c ext AUDIO_MAGIC_NUMBERS with
    | some b => b
    | none =>
      let detected := (AUDIO_MAGIC_NUMBERS.filter (fun p => pfxOf p.1 c)).map Prod.snd
      if detected.isEmpty = false then false else false

example :
    validate_audio_content (RIFF_MAGIC ++ [0, 0, 0, 0] ++ WAVE_TAG ++ List.replicate 8 0) ".wav" =
      true := by decide

example :
    validate_audio_content
      (RIFF_MAGIC ++ [0, 0, 0, 0] ++ [0x58, 0x58, 0x58, 0x58] ++ List.replicate 8 0) ".wav" =
      false := by decide

example : validate_audio_content ([0xFF, 0xFB] ++ List.replicate 18 1) ".mp3" = true := by decide

example :
    validate_audio_content (RIFF_MAGIC ++ [0, 0, 0, 0] ++ WAVE_TAG ++ List.replicate 8 0) ".mp3" =
      false := by decide

/-! ## Malware heuristic scanner (`security.py`, `detect_malware_patterns`) -/

/-- The `malware_patterns` list of `detect_malware_patterns`, in source order:
executable headers, script markers, archive signatures and suspicious
call-like tokens, each as its byte sequence, paired with its reason string. -/
def malware_patterns : List (List Nat × String) :=
  [([0x4D, 0x5A], "PE executable header detected"),
   ([0x7F, 0x45, 0x4C, 0x46], "ELF executable header detected"),
   ([0xCA, 0xFE, 0xBA, 0xBE], "Mach-O executable header detected"),
   ([0x23, 0x21, 0x2F, 0x62, 0x69, 0x6E, 0x2F], "Shell script detected"),
   ([0x23, 0x21, 0x2F, 0x75, 0x73, 0x72, 0x2F, 0x62, 0x69, 0x6E, 0x2F], "Shell script detected"),
   ([0x3C, 0x73, 0x63, 0x72, 0x69, 0x70, 0x74], "JavaScript detected"),
   ([0x3C, 0x3F, 0x70, 0x68, 0x70], "PHP script detected"),
   ([0x70, 0x79, 0x74, 0x68, 0x6F, 0x6E], "Python script detected"),
   ([0x50, 0x4B, 0x03, 0x04], "ZIP archive detected"),
   ([0x52, 0x61, 0x72, 0x21], "RAR archive detected"),
   ([0x1F, 0x8B], "GZIP archive detected"),
   ([0x65, 0x76, 0x61, 0x6C, 0x28], "Suspicious eval() function detected"),
   ([0x73, 0x79, 0x73, 0x74, 0x65, 0x6D, 0x28], "Suspicious system() function detected"),
   ([0x65, 0x78, 0x65, 0x63, 0x28], "Suspicious exec() function detected"),
   ([0x73, 0x68, 0x65, 0x6C, 0x6C, 0x5F, 0x65, 0x78, 0x65, 0x63],
     "Suspicious shell_exec() function detected")]

/-- The `for pattern, reason in malware_patterns` loop: the first pattern
found inside the window yields its reason (a `return True, reason`). -/
def patScan (w : List Nat) : List (List Nat × String) → Option String
  | [] => none
  | (p, r) :: rest => if hasSub p w = true then some r else patScan w rest

/-- Count of NUL bytes in a window (`file_content[:1024].count(b'\x00')`). -/
def nullCount (w : List Nat) : Nat := w.countP (fun b => b == 0)

/-- One step of the longest-line scan: a line break (`\n` or `\r`) closes the
current run, any other byte extends it.  State is (longest so far, current). -/
def lineStep (s : Nat × Nat) (b : Nat) : Nat × Nat :=
  if b = 0x0A ∨ b = 0x0D then (max s.1 s.2, 0) else (s.1, s.2 + 1)

/-- The longest run of bytes without a line break in the window, including the
trailing unterminated run (the source's final `max(max_line_length,
current_length)`). -/
def maxLineLength (w : List Nat) : Nat :=
  let s := w.foldl lineStep (0, 0)
  max s.1 s.2

/-- `detect_malware_patterns` from `security.py`: over the leading 1024-byte
window, first the pattern scan, then the NUL-count check (`> 512`), then the
long-line check (`> 800`); otherwise not suspicious. -/
def detect_malware_patterns (c : List Nat) : Bool × Option String :=
  match patScan (c.take 1024) malware_patterns with
  | some r => (true, some r)
  | none =>
    let nc := nullCount (c.take 1024)
    if nc > 512 then (true, some ("Excessive null bytes: " ++ toString nc ++ "/1024"))
    else
      let mll := maxLineLength (c.take 1024)
      if mll > 800 then (true, some ("Extremely long line: " ++ toString mll ++ " bytes"))
      else (false, none)

example : detect_malware_patterns (List.replicate 20 0) = (false, none) := by decide

example : (detect_malware_patterns (List.replicate 600 0 ++ List.replicate 424 1)).1 = true := by
  decide

/-! ## Filesystem model and secure temp-file manager -/

/-- A filesystem as an association list from paths to byte contents; a write
shadows older entries for the same path. -/
abbrev Fs := List (String × List Nat)

/-- Reading a file: content of the newest entry for the path, if any. -/
def fsRead (fs : Fs) (p : String) : Option (List Nat) :=
  (fs.find? (fun e => e.1 == p)).map Prod.snd

/-- Writing a file (creating or overwriting). -/
def fsWrite (fs : Fs) (p : String) (content : List Nat) : Fs := (p, content) :: fs

/-- `os.unlink`: every entry for the path is removed. -/
def fsRemove (fs : Fs) (p : String) : Fs := fs.filter (fun e => !(e.1 == p))

/-- `os.path.exists`. -/
def fsExists (fs : Fs) (p : String) : Bool := fs.any (fun e => e.1 == p)

/-- The path `tempfile.mkstemp` allocates in `create_secure_temp_file`:
prefix `whisper_audio_` plus a random component (`secrets.token_hex(8)` and
mkstemp's own random part, both folded into `token`), then the extension as
suffix. -/
def tempFilePath (token ext : String) : String :=
  "/tmp/whisper_audio_" ++ token ++ "_" ++ ext

/-- `create_secure_temp_file` from `security.py`: allocate the temp path,
restrict permissions, write the content, return the path.  Permissions and
the write-failure cleanup path are not modelled: in this model every write
succeeds. -/
def create_secure_temp_file (fs : Fs) (content : List Nat) (ext : String) (token : String) :
    String × Fs :=
  (tempFilePath token ext, fsWrite fs (tempFilePath token ext) content)

/-- `safe_cleanup_temp_file` from `security.py`: unlink the file if it
exists (the `chmod` before deletion is not observable in this model). -/
def safe_cleanup_temp_file (fs : Fs) (p : String) : Fs :=
  if fsExists fs p = true then fsRemove fs p else fs

/-- The `generic_messages` dict of `get_generic_error_message`. -/
def generic_messages : List (String × String) :=
  [("file_validation", "The uploaded file format is not supported or contains invalid content"),
   ("file_size", "File size exceeds the maximum allowed limit"),
   ("processing", "Audio processing could not be completed"),
   ("server_error", "A server error occurred while processing your request"),
   ("path_traversal", "The filename contains invalid characters"),
   ("malware_detected", "The uploaded file contains suspicious content"),
   ("invalid_extension", "The file extension is not supported"),
   ("content_mismatch", "The file content does not match the expected format"),
   ("timeout", "The request timed out while processing"),
   ("quota_exceeded", "The service quota has been exceeded")]

/-- `get_generic_error_message` from `security.py`. -/
def get_generic_error_message (t : String) : String :=
  match generic_messages.find? (fun p => p.1 == t) with
  | some p => p.2
  | none => "An error occurred while processing your request. Please try again with a valid audio file."

/-! ## The `/transcribe` request handler (`main.py`, `transcribe_audio`) -/

/-- The HTTP outcome of a request: a transcript, or an `HTTPException` with a
status code and a generic detail message. -/
inductive HttpResult : Type
  | ok (transcript : String)
  | err (status : Nat) (detail : String)
deriving DecidableEq, Repr

/-- Result of one `/transcribe` request: the HTTP outcome, the filesystem
after the handler (its `finally` block included), and two pieces of ghost
state for specification purposes only: the temp path created by
`create_secure_temp_file` during the request (if one was), and the ordered
trace of the `security.py` pipeline functions the handler invoked. -/
structure ReqTrace : Type where
  result : HttpResult
  fs : Fs
  tempPath : Option String
  calls : List String
deriving Repr

/-- The `transcribe_audio` handler from `main.py`, with its effects made
explicit.  `modelLoaded` models the global `model`, `token` the random
component of the temp path, `logDebug` whether `config.LOG_LEVEL == "DEBUG"`,
`downstreamOk` whether the post-creation block (stat, wave analysis, the
Whisper call) succeeds, and `transcript` the stripped text Whisper returns
when it does.

Control flow mirrors the source: the model check precedes the `try`; inside
the `try`, sanitize, extension check, size check, content check, temp-file
creation, optional debug copy, transcription.  Note the size (413) and
invalid-content (400) `HTTPException`s are raised inside the `try` and are
caught by the handler's own `except Exception` clause (an `HTTPException` is
an `Exception`), which re-raises them as 500 with the `processing` message —
so both rejections surface as status 500.  The `finally` block always runs
`safe_cleanup_temp_file` when `temp_file_path` was set. -/
def transcribe_audio (modelLoaded : Bool) (filename : List Char) (content : List Nat)
    (token : String) (logDebug : Bool) (downstreamOk : Bool) (transcript : String)
    (fs : Fs) : ReqTrace :=
  if modelLoaded = false then
    ⟨.err 500 (get_generic_error_message "server_error"), fs, none, []⟩
  else
    match sanitize_filename filename with
    | .error _ =>
      ⟨.err 400 (get_generic_error_message "path_traversal"), fs, none, ["sanitize_filename"]⟩
    | .ok sanitized =>
      match validate_file_extension sanitized ALLOWED_EXTENSIONS with
      | .error _ =>
        ⟨.err 400 (get_generic_error_message "file_validation"), fs, none,
          ["sanitize_filename", "validate_file_extension"]⟩
      | .ok ext =>
        if content.length > MAX_FILE_SIZE then
          ⟨.err 500 (get_generic_error_message "processing"), fs, none,
            ["sanitize_filename", "validate_file_extension"]⟩
        else if validate_audio_content content ext = false then
          ⟨.err 500 (get_generic_error_message "processing"), fs, none,
            ["sanitize_filename", "validate_file_extension", "validate_audio_content"]⟩
        else
          let tp := (create_secure_temp_file fs content ext token).1
          let fs1 := (create_secure_temp_file fs content ext token).2
          let fs2 :=
            if logDebug = true then
              fsWrite fs1 ("/tmp/audio_debug/debug_" ++ String.mk sanitized) content
            else fs1
          let resp :=
            if downstreamOk = true then HttpResult.ok transcript
            else HttpResult.err 500 (get_generic_error_message "processing")
          ⟨resp, safe_cleanup_temp_file fs2 tp, some tp,
            ["sanitize_filename", "validate_file_extension", "validate_audio_content",
             "create_secure_temp_file", "safe_cleanup_temp_file"]⟩

/-! ## Helper lemmas -/

theorem all_mem_valid {f : List Char} (hall : f.all validChar = true) :
    ∀ c ∈ f, validChar c = true := fun c hc => List.all_eq_true.mp hall c hc

/-- A filename all of whose characters pass the whitelist contains no `/`, so
`basename` leaves it unchanged. -/
theorem basename_of_all_valid {f : List Char} (hall : f.all validChar = true) :
    basename f = f := by
  unfold basename
  have h : ∀ c ∈ f.reverse, (fun c => decide (¬ c = '/')) c = true := by
    intro c hc
    have hv := all_mem_valid hall c (List.mem_reverse.mp hc)
    simp only [decide_eq_true_eq]
    intro heq
    rw [heq] at hv
    exact absurd hv (by decide)
  rw [takeWhile_all _ _ h, List.reverse_reverse]

/-- A one-character pattern whose character fails the whitelist cannot occur
in an all-whitelisted filename. -/
theorem hasSub_single_invalid {f : List Char} (hall : f.all validChar = true)
    (ch : Char) (hv : validChar ch = false) : hasSub [ch] f = false := by
  cases hsb : hasSub [ch] f with
  | false => rfl
  | true =>
    exfalso
    have hin := hasSub_mem hsb ch (List.mem_singleton.mpr rfl)
    have := all_mem_valid hall ch hin
    rw [hv] at this
    cases this

/-! ## Claim C1 -/

/-- C1 (counterexample).  The claim says every filename containing `..` or `/`
is rejected with `PathTraversal`, and in particular `"../../etc/passwd"` is.
But `sanitize_filename` reduces to the POSIX basename first, so
`"../../etc/passwd"` — which contains both `..` and `/` — is accepted and
returns `"passwd"`. -/
theorem sanitize_traversal_counterexample :
    hasSub ['.', '.'] ("../../etc/passwd".data) = true ∧
    hasSub ['/'] ("../../etc/passwd".data) = true ∧
    sanitize_filename ("../../etc/passwd".data) = .ok ("passwd".data) := by decide

/-- C1 (amended).  For every filename whose POSIX basename (the part after the
last `/`) contains one of the dangerous patterns `..`, `/`, `\`, NUL, CR, LF,
`sanitize_filename` raises `PathTraversalError`; directory components
themselves are stripped by basename extraction rather than rejected. -/
theorem sanitize_dangerous_basename_rejects (f p : List Char)
    (hp : p ∈ dangerous_patterns) (hs : hasSub p (basename f) = true) :
    isPathTraversalErr (sanitize_filename f) = true := by
  have hfne : ¬ f = [] := by
    intro h
    subst h
    have hb : basename ([] : List Char) = [] := rfl
    rw [hb] at hs
    simp only [dangerous_patterns, List.mem_cons, List.mem_singleton,
      List.not_mem_nil, or_false] at hp
    rcases hp with rfl | rfl | rfl | rfl | rfl | rfl <;> simp [hasSub] at hs
  have hany : dangerous_patterns.any (fun q => hasSub q (basename f)) = true :=
    List.any_eq_true.mpr ⟨p, hp, hs⟩
  unfold sanitize_filename
  rw [if_neg hfne, if_pos hany]
  rfl

/-- C1 (witness): the basename of `"a..b"` contains `..`, and the sanitizer
indeed raises `PathTraversalError` on it. -/
theorem sanitize_dangerous_basename_rejects_witness :
    (['.', '.'] ∈ dangerous_patterns ∧ hasSub ['.', '.'] (basename ("a..b".data)) = true) ∧
    isPathTraversalErr (sanitize_filename ("a..b".data)) = true :=
  ⟨by decide, sanitize_dangerous_basename_rejects ("a..b".data) ['.', '.'] (by decide) (by decide)⟩

/-! ## Claim C2 -/

/-- C2 (counterexample).  The claim says every filename matching
`^[A-Za-z0-9._-]+$`, not starting with `.` and of length ≤ 255 is accepted
unchanged.  `"a..b"` satisfies all of that, yet `sanitize_filename` rejects it
because its basename contains the dangerous pattern `..`. -/
theorem sanitize_accepts_counterexample :
    (("a..b".data) ≠ [] ∧ ("a..b".data).all validChar = true ∧
      pfxOf ['.'] ("a..b".data) = false ∧ ("a..b".data).length ≤ 255) ∧
    sanitize_filename ("a..b".data) ≠ .ok ("a..b".data) := by decide

/-- C2 (amended).  Every nonempty filename made only of characters in
`[A-Za-z0-9._-]`, not containing `..`, not starting with `.`, and at most 255
characters long (each whitelisted character is one byte) is accepted by
`sanitize_filename` unchanged. -/
theorem sanitize_whitelisted_accepts (f : List Char) (hne : f ≠ [])
    (hall : f.all validChar = true) (hdots : hasSub ['.', '.'] f = false)
    (hdot : pfxOf ['.'] f = false) (hlen : f.length ≤ 255) :
    sanitize_filename f = .ok f := by
  have hbn : basename f = f := basename_of_all_valid hall
  have h2 : hasSub ['/'] f = false := hasSub_single_invalid hall '/' (by decide)
  have h3 : hasSub ['\\'] f = false := hasSub_single_invalid hall '\\' (by decide)
  have h4 : hasSub ['\x00'] f = false := hasSub_single_invalid hall '\x00' (by decide)
  have h5 : hasSub ['\r'] f = false := hasSub_single_invalid hall '\r' (by decide)
  have h6 : hasSub ['\n'] f = false := hasSub_single_invalid hall '\n' (by decide)
  have hany : dangerous_patterns.any (fun q => hasSub q (basename f)) = false := by
    simp only [hbn, dangerous_patterns, List.any_cons, List.any_nil,
      hdots, h2, h3, h4, h5, h6, Bool.or_self, Bool.or_false]
  unfold sanitize_filename
  rw [if_neg hne]
  rw [if_neg (by simp [hany])]
  rw [if_neg (not_not_intro ⟨by rw [hbn]; exact hne, by rw [hbn]; exact hall⟩)]
  rw [if_neg (by simp [hbn, hdot])]
  rw [if_neg (by rw [hbn]; omega)]
  rw [hbn]

/-- C2 (witness): `"note.wav"` satisfies every hypothesis and is accepted
unchanged. -/
theorem sanitize_whitelisted_accepts_witness :
    sanitize_filename ("note.wav".data) = .ok ("note.wav".data) :=
  sanitize_whitelisted_accepts ("note.wav".data) (by decide) (by decide) (by decide)
    (by decide) (by decide)

/-! ## Helper lemmas about the magic-number loop -/

theorem pfxOf_cons_iff {α : Type} [DecidableEq α] (a : α) (as l : List α) :
    pfxOf (a :: as) l = true ↔ ∃ t, l = a :: t ∧ pfxOf as t = true := by
  cases l with
  | nil =>
    simp only [pfxOf]
    constructor
    · intro h; cases h
    · rintro ⟨t, ht, _⟩; cases ht
  | cons b bs =>
    simp only [pfxOf]
    split
    · next heq =>
      subst heq
      constructor
      · intro hp; exact ⟨bs, rfl, hp⟩
      · rintro ⟨t, ht, hp⟩
        injection ht with _ hbs
        rw [hbs]
        exact hp
    · next hne =>
      constructor
      · intro h; cases h
      · rintro ⟨t, ht, _⟩
        injection ht with hab _
        exact absurd hab.symm hne

/-- Two prefixes of the same list are comparable: one of them starts with the
other. -/
theorem pfxOf_comparable {α : Type} [DecidableEq α] {p q l : List α}
    (hp : pfxOf p l = true) (hq : pfxOf q l = true) :
    pfxOf p q = true ∨ pfxOf q p = true := by
  induction p generalizing q l with
  | nil => left; exact pfxOf_nil q
  | cons a as ih =>
    cases q with
    | nil => right; exact pfxOf_nil (a :: as)
    | cons b bs =>
      cases l with
      | nil => cases hp
      | cons x xs =>
        obtain ⟨t, ht, hp2⟩ := (pfxOf_cons_iff a as (x :: xs)).mp hp
        obtain ⟨t2, ht2, hq2⟩ := (pfxOf_cons_iff b bs (x :: xs)).mp hq
        injection ht with hax hxs
        injection ht2 with hbx hxs2
        subst hxs
        subst hxs2
        rcases ih hp2 hq2 with hc | hc
        · left
          rw [pfxOf_cons_iff]
          exact ⟨bs, by rw [← hax, ← hbx], hc⟩
        · right
          rw [pfxOf_cons_iff]
          exact ⟨as, by rw [← hbx, ← hax], hc⟩

/-- No magic number of the table is a proper prefix of another: a prefix
relation between table magics forces the entries to be equal.  Checked by
evaluation over the concrete table. -/
theorem magic_no_shadow :
    ∀ p ∈ AUDIO_MAGIC_NUMBERS, ∀ q ∈ AUDIO_MAGIC_NUMBERS,
      pfxOf p.1 q.1 = true → p = q := by decide

/-- In the concrete table, the `RIFF` magic maps to `.wav` and the WebM magic
to `.webm` (used to discharge the special-cased branches of the loop). -/
theorem magic_special_exts :
    ∀ p ∈ AUDIO_MAGIC_NUMBERS,
      (p.1 = RIFF_MAGIC → p.2 = ".wav") ∧ (p.1 = WEBM_MAGIC → p.2 = ".webm") := by decide

/-- If the magic loop returns `True`, some table entry's magic occurs at
offset 0 of the payload and that entry's extension equals the expected one. -/
theorem magicLoop_true_mem (c : List Nat) (ext : String) (l : List (List Nat × String))
    (wf : ∀ p ∈ l, (p.1 = RIFF_MAGIC → p.2 = ".wav") ∧ (p.1 = WEBM_MAGIC → p.2 = ".webm"))
    (h : magicLoop c ext l = some true) :
    ∃ p ∈ l, pfxOf p.1 c = true ∧ p.2 = ext := by
  induction l with
  | nil => cases h
  | cons hd rest ih =>
    obtain ⟨m, e⟩ := hd
    have wfhd := wf (m, e) (List.mem_cons_self _ _)
    have wftl : ∀ p ∈ rest, (p.1 = RIFF_MAGIC → p.2 = ".wav") ∧
        (p.1 = WEBM_MAGIC → p.2 = ".webm") :=
      fun p hp => wf p (List.mem_cons_of_mem _ hp)
    simp only [magicLoop] at h
    by_cases hpf : pfxOf m c = true
    · rw [if_pos hpf] at h
      by_cases h1 : m = RIFF_MAGIC ∧ ext = ".wav"
      · refine ⟨(m, e), List.mem_cons_self _ _, hpf, ?_⟩
        rw [wfhd.1 h1.1, h1.2]
      · rw [if_neg h1] at h
        by_cases h2 : pfxOf [0x00, 0x00, 0x00] m = true ∧ (ext = ".m4a" ∨ ext = ".mp4")
        · rw [if_pos h2] at h
          by_cases h3 : hasSub FTYP_TAG (c.take 32) = true
          · rw [if_pos h3] at h
            have he : e = ext := by
              have := Option.some.inj h
              exact of_decide_eq_true this
            exact ⟨(m, e), List.mem_cons_self _ _, hpf, he⟩
          · rw [if_neg h3] at h
            cases Option.some.inj h
        · rw [if_neg h2] at h
          by_cases h4 : m = WEBM_MAGIC ∧ ext = ".webm"
          · refine ⟨(m, e), List.mem_cons_self _ _, hpf, ?_⟩
            rw [wfhd.2 h4.1, h4.2]
          · rw [if_neg h4] at h
            by_cases h5 : e = ext
            · exact ⟨(m, e), List.mem_cons_self _ _, hpf, h5⟩
            · rw [if_neg h5] at h
              obtain ⟨p, hp, hc, hpe⟩ := ih wftl h
              exact ⟨p, List.mem_cons_of_mem _ hp, hc, hpe⟩
    · rw [if_neg hpf] at h
      obtain ⟨p, hp, hc, hpe⟩ := ih wftl h
      exact ⟨p, List.mem_cons_of_mem _ hp, hc, hpe⟩

/-- If no table magic occurs at offset 0, the loop falls through. -/
theorem magicLoop_none (c : List Nat) (ext : String) (l : List (List Nat × String))
    (h : ∀ p ∈ l, pfxOf p.1 c = false) : magicLoop c ext l = none := by
  induction l with
  | nil => rfl
  | cons hd rest ih =>
    obtain ⟨m, e⟩ := hd
    simp only [magicLoop]
    rw [if_neg (by simp [h (m, e) (List.mem_cons_self _ _)])]
    exact ih fun p hp => h p (List.mem_cons_of_mem _ hp)

/-! ## Claim C4 -/

/-- C4.  For every payload of at least 20 bytes that starts with `RIFF` and
claims extension `.wav`, `validate_audio_content` accepts exactly when bytes
8–11 are the literal `WAVE`; a RIFF payload without `WAVE` there is rejected
even though the claimed extension is `.wav`. -/
theorem validate_wav_riff_iff (c : List Nat) (h20 : 20 ≤ c.length)
    (hr : pfxOf RIFF_MAGIC c = true) :
    validate_audio_content c ".wav" = true ↔ (c.drop 8).take 4 = WAVE_TAG := by
  simp only [RIFF_MAGIC] at hr
  obtain ⟨t1, he1, hr1⟩ := (pfxOf_cons_iff _ _ _).mp hr
  subst he1
  obtain ⟨t2, he2, hr2⟩ := (pfxOf_cons_iff _ _ _).mp hr1
  subst he2
  obtain ⟨t3, he3, hr3⟩ := (pfxOf_cons_iff _ _ _).mp hr2
  subst he3
  obtain ⟨t, he4, -⟩ := (pfxOf_cons_iff _ _ _).mp hr3
  subst he4
  have hlen : 16 ≤ t.length := by
    simp only [List.length_cons] at h20
    omega
  have hml : magicLoop (0x52 :: 0x49 :: 0x46 :: 0x46 :: t) ".wav" AUDIO_MAGIC_NUMBERS =
      if (0x52 :: 0x49 :: 0x46 :: 0x46 :: t : List Nat).length > 12 ∧
          (((0x52 : Nat) :: 0x49 :: 0x46 :: 0x46 :: t).drop 8).take 4 = WAVE_TAG then
        some true
      else some false := by
    simp [AUDIO_MAGIC_NUMBERS, magicLoop, pfxOf, RIFF_MAGIC]
  unfold validate_audio_content
  rw [if_neg (by simp only [List.length_cons]; omega)]
  rw [hml]
  have hgt : (0x52 :: 0x49 :: 0x46 :: 0x46 :: t : List Nat).length > 12 := by
    simp only [List.length_cons]
    omega
  by_cases hw : (((0x52 : Nat) :: 0x49 :: 0x46 :: 0x46 :: t).drop 8).take 4 = WAVE_TAG
  · rw [if_pos ⟨hgt, hw⟩]
    exact iff_of_true rfl hw
  · rw [if_neg (by intro hc; exact hw hc.2)]
    exact iff_of_false (by simp) hw

/-- C4 (witness): a 20-byte `RIFF....WAVE` payload with extension `.wav` is
accepted. -/
theorem validate_wav_riff_iff_witness :
    validate_audio_content (RIFF_MAGIC ++ [0, 0, 0, 0] ++ WAVE_TAG ++ List.replicate 8 0)
      ".wav" = true :=
  (validate_wav_riff_iff _ (by decide) (by decide)).mpr (by decide)

/-! ## Claim C5 -/

/-- C5.  Whenever the payload starts with the magic bytes of some table entry
whose mapped extension differs from the claimed extension,
`validate_audio_content` rejects, even though magic and extension each look
valid on their own. -/
theorem validate_mismatch_rejects (c : List Nat) (ext : String) (p : List Nat × String)
    (hmem : p ∈ AUDIO_MAGIC_NUMBERS) (hpf : pfxOf p.1 c = true) (hne : p.2 ≠ ext) :
    validate_audio_content c ext = false := by
  cases hb : validate_audio_content c ext with
  | false => rfl
  | true =>
    exfalso
    unfold validate_audio_content at hb
    by_cases hlen : c.length < 20
    · rw [if_pos hlen] at hb
      cases hb
    · rw [if_neg hlen] at hb
      cases hml : magicLoop c ext AUDIO_MAGIC_NUMBERS with
      | none =>
        rw [hml] at hb
        simp at hb
      | some b =>
        rw [hml] at hb
        cases b with
        | false => simp at hb
        | true =>
          obtain ⟨q, hq, hqc, hqe⟩ := magicLoop_true_mem c ext _ magic_special_exts hml
          rcases pfxOf_comparable hpf hqc with hc | hc
          · have hpq := magic_no_shadow p hmem q hq hc
            rw [hpq] at hne
            exact hne hqe
          · have hqp := magic_no_shadow q hq p hmem hc
            rw [← hqp] at hne
            exact hne hqe

/-- C5 (witness): a valid WAV payload claimed as `.mp3` is rejected. -/
theorem validate_mismatch_rejects_witness :
    validate_audio_content (RIFF_MAGIC ++ [0, 0, 0, 0] ++ WAVE_TAG ++ List.replicate 8 0)
      ".mp3" = false :=
  validate_mismatch_rejects _ ".mp3" (RIFF_MAGIC, ".wav") (by decide) (by decide) (by decide)

/-! ## Claim C6 -/

/-- C6.  `validate_audio_content` is a total boolean decision procedure (as a
Lean function it is total and deterministic by construction, and its
translation needed no partial operation of the source language), and every
malformed input — shorter than 20 bytes or matching no magic-number prefix —
is classified as a rejection, never as an error. -/
theorem validate_total_decision (c : List Nat) (ext : String) :
    (validate_audio_content c ext = true ∨ validate_audio_content c ext = false) ∧
    ((c.length < 20 ∨ ∀ p ∈ AUDIO_MAGIC_NUMBERS, pfxOf p.1 c = false) →
      validate_audio_content c ext = false) := by
  constructor
  · cases validate_audio_content c ext
    · right; rfl
    · left; rfl
  · intro h
    unfold validate_audio_content
    rcases h with h | h
    · rw [if_pos h]
    · by_cases hlen : c.length < 20
      · rw [if_pos hlen]
      · rw [if_neg hlen, magicLoop_none c ext _ h]
        simp

/-- C6 (witness): the empty payload is malformed and is rejected. -/
theorem validate_total_decision_witness :
    validate_audio_content [] ".mp3" = false :=
  (validate_total_decision [] ".mp3").2 (Or.inl (by decide))

/-! ## Claim C7 -/

/-- C7 (counterexample).  The claim says a payload whose scan window (the
whole payload when shorter than 1024 bytes) is more than 50% NUL is flagged
as suspicious.  A 20-byte payload of only NUL bytes is 100% NUL, yet
`detect_malware_patterns` reports it as not suspicious: the source compares
the NUL count against the fixed threshold 512, not against half the window. -/
theorem detect_null_ratio_counterexample :
    2 * nullCount ((List.replicate 20 (0 : Nat)).take 1024) >
      ((List.replicate 20 (0 : Nat)).take 1024).length ∧
    (detect_malware_patterns (List.replicate 20 (0 : Nat))).1 = false := by decide

/-- C7 (amended).  For every payload with strictly more than 512 NUL bytes
among its first 1024 bytes, `detect_malware_patterns` reports suspicious —
the threshold is the absolute count 512 (50% of a full 1024-byte window), so
this covers every 1024-byte payload with 600 NUL bytes, but a shorter
majority-NUL window with at most 512 NULs is not flagged by this check. -/
theorem detect_nulls_over_512 (c : List Nat) (h : 512 < nullCount (c.take 1024)) :
    (detect_malware_patterns c).1 = true := by
  cases hps : patScan (c.take 1024) malware_patterns with
  | some r => simp [detect_malware_patterns, hps]
  | none => simp [detect_malware_patterns, hps, h]

/-- C7 (witness): the spec's scenario, a 1024-byte payload with 600 NUL
bytes, is flagged as suspicious. -/
theorem detect_nulls_over_512_witness :
    (detect_malware_patterns (List.replicate 600 0 ++ List.replicate 424 1)).1 = true :=
  detect_nulls_over_512 (List.replicate 600 0 ++ List.replicate 424 1) (by decide)

/-! ## Claim C8 -/

/-- C8.  `detect_malware_patterns` inspects only the first 1024 bytes: any
two payloads agreeing on their first 1024 bytes get the same (suspicious,
reason) verdict, whatever their total lengths. -/
theorem detect_window_1024 (c₁ c₂ : List Nat) (h : c₁.take 1024 = c₂.take 1024) :
    detect_malware_patterns c₁ = detect_malware_patterns c₂ := by
  unfold detect_malware_patterns
  rw [h]

/-- C8 (witness): 1024 and 1025 NUL bytes agree on the window and get the
same verdict. -/
theorem detect_window_1024_witness :
    detect_malware_patterns (List.replicate 1024 0) =
      detect_malware_patterns (List.replicate 1025 0) :=
  detect_window_1024 _ _ (by simp [List.take_replicate])

/-! ## Helper lemmas about the filesystem model -/

theorem fsExists_fsRemove (fs : Fs) (p : String) : fsExists (fsRemove fs p) p = false := by
  induction fs with
  | nil => rfl
  | cons e rest ih =>
    simp only [fsRemove, List.filter_cons]
    cases he : (e.1 == p) with
    | true =>
      simp only [he, Bool.not_true, if_neg]
      exact ih
    | false =>
      simp only [he, Bool.not_false, if_pos, fsExists, List.any_cons]
      simp only [fsRemove, fsExists] at ih
      simp [he, ih]

/-- After `safe_cleanup_temp_file fs p`, the path `p` does not exist. -/
theorem fsExists_safe_cleanup (fs : Fs) (p : String) :
    fsExists (safe_cleanup_temp_file fs p) p = false := by
  unfold safe_cleanup_temp_file
  by_cases h : fsExists fs p = true
  · rw [if_pos h]
    exact fsExists_fsRemove fs p
  · rw [if_neg h]
    cases hb : fsExists fs p with
    | false => rfl
    | true => exact absurd hb h

/-! ## Claim C3 -/

/-- C3.  Whenever a `/transcribe` request created a temp file (the ghost
`tempPath` field records the path `create_secure_temp_file` returned), the
filesystem after the handler's scope exits — on the success path as well as
on downstream failure, and trivially on every validation rejection, which
creates no temp file — no longer contains that path: the `finally` block
always runs `safe_cleanup_temp_file`. -/
theorem transcribe_audio_cleanup (ml : Bool) (f : List Char) (c : List Nat) (tok : String)
    (dbg ok : Bool) (tr : String) (fs : Fs) (p : String)
    (h : (transcribe_audio ml f c tok dbg ok tr fs).tempPath = some p) :
    fsExists (transcribe_audio ml f c tok dbg ok tr fs).fs p = false := by
  revert h
  unfold transcribe_audio
  split
  · intro h
    exact Option.noConfusion h
  · split
    · intro h
      exact Option.noConfusion h
    · split
      · intro h
        exact Option.noConfusion h
      · split
        · intro h
          exact Option.noConfusion h
        · split
          · intro h
            exact Option.noConfusion h
          · intro h
            have hp := Option.some.inj h
            subst hp
            exact fsExists_safe_cleanup _ _

/-- C3 (witness): a fully successful request for `"note.wav"` with a valid
20-byte WAV payload creates `/tmp/whisper_audio_t_.wav` and leaves no file at
that path behind. -/
theorem transcribe_audio_cleanup_witness :
    fsExists
      (transcribe_audio true ("note.wav".data)
        (RIFF_MAGIC ++ [0, 0, 0, 0] ++ WAVE_TAG ++ List.replicate 8 0) "t" false true "hi" []).fs
      "/tmp/whisper_audio_t_.wav" = false :=
  transcribe_audio_cleanup true ("note.wav".data)
    (RIFF_MAGIC ++ [0, 0, 0, 0] ++ WAVE_TAG ++ List.replicate 8 0) "t" false true "hi" []
    "/tmp/whisper_audio_t_.wav" (by decide)

/-! ## Claim C9 -/

/-- C9.  Round-trip: writing payload `P` through `create_secure_temp_file`
and reading the file at the returned path yields exactly `P`,
byte-identical. -/
theorem create_temp_roundtrip (fs : Fs) (content : List Nat) (ext token : String) :
    fsRead (create_secure_temp_file fs content ext token).2
      (create_secure_temp_file fs content ext token).1 = some content := by
  simp [create_secure_temp_file, fsRead, fsWrite, List.find?]

/-! ## Claim C10 -/

/-- C10.  The `/transcribe` handler never invokes the malware heuristic
scanner: on every control path the ghost call trace — which records the
`security.py` pipeline functions `transcribe_audio` invokes, in order —
does not contain `detect_malware_patterns`, so no upload is ever rejected on
that scanner's verdict. -/
theorem transcribe_audio_never_scans (ml : Bool) (f : List Char) (c : List Nat)
    (tok : String) (dbg ok : Bool) (tr : String) (fs : Fs) :
    "detect_malware_patterns" ∉ (transcribe_audio ml f c tok dbg ok tr fs).calls := by
  unfold transcribe_audio
  split
  · show ("detect_malware_patterns" : String) ∉ ([] : List String)
    decide
  · split
    · show ("detect_malware_patterns" : String) ∉ ["sanitize_filename"]
      decide
    · split
      · show ("detect_malware_patterns" : String) ∉ ["sanitize_filename", "validate_file_extension"]
        decide
      · split
        · show ("detect_malware_patterns" : String) ∉
            ["sanitize_filename", "validate_file_extension"]
          decide
        · split
          · show ("detect_malware_patterns" : String) ∉
              ["sanitize_filename", "validate_file_extension", "validate_audio_content"]
            decide
          · show ("detect_malware_patterns" : String) ∉
              ["sanitize_filename", "validate_file_extension", "validate_audio_content",
               "create_secure_temp_file", "safe_cleanup_temp_file"]
            decide

